import Mathlib

/-!
Shallow embedding of `src/utm_visualizer.py` (the repository's single source
file): the `TuringMachine` model (constructor, `ensure_head_in_bounds`,
`step`, `reset`) and the textual description reader
(`parse_tm_description`).

Python strings become Lean `String`; the tape (`list(tape_str)`, a Python
list of one-character strings) becomes `List String` with each character
embedded as a singleton string.  The head is an `Int` because the code lets
it go negative between steps.  The transition dictionary becomes an
association list with most-recent-first lookup (`dictGet`), which matches
dict assignment's last-write-wins semantics.  Fallible Python code (tuple
unpacking, which raises `ValueError`) becomes `Except String`, with the
error strings exactly those CPython produces, e.g.
"not enough values to unpack (expected 3, got 2)".

The Python string primitives used by the source (`strip`, `split`, `upper`,
`lower`, `startswith`, membership `in`) are defined here over `List Char`
by structural recursion so that every definition evaluates inside the
kernel.
-/

/-- Python `s.strip()`: drop whitespace from both ends (ASCII whitespace;
the inputs at issue use only spaces, tabs and newlines). -/
def pyStrip (s : String) : String :=
  String.mk (((s.data.dropWhile Char.isWhitespace).reverse.dropWhile
    Char.isWhitespace).reverse)

/-- Python `s.upper()` (ASCII). -/
def pyUpper (s : String) : String := String.mk (s.data.map Char.toUpper)

/-- Python `s.lower()` (ASCII). -/
def pyLower (s : String) : String := String.mk (s.data.map Char.toLower)

/-- Python `s.startswith(pat)`. -/
def pyStartsWith (s pat : String) : Bool := pat.data.isPrefixOf s.data

/-- Worker for `pySplitOn`: scan left to right; on a separator match emit the
current piece and resume after the separator.  The fuel argument (initially
the length of the scanned list, which bounds the number of iterations) makes
the recursion structural. -/
def splitListGo (sep : List Char) : Nat → List Char → List Char → List (List Char)
  | 0, _, cur => [cur.reverse]
  | _ + 1, [], cur => [cur.reverse]
  | fuel + 1, c :: rest, cur =>
    if sep.isPrefixOf (c :: rest) then
      cur.reverse :: splitListGo sep fuel (rest.drop (sep.length - 1)) []
    else splitListGo sep fuel rest (c :: cur)

/-- Python `s.split(sep)` for a nonempty separator. -/
def pySplitOn (s sep : String) : List String :=
  (splitListGo sep.data s.data.length s.data []).map String.mk

/-- Python `pat in s` for a nonempty pattern: `split` produces more than one
piece exactly when the pattern occurs. -/
def hasSub (s pat : String) : Bool := (pySplitOn s pat).length != 1

/-- Rejoin pieces with the separator (used for `maxsplit` remainders). -/
def joinSep (sep : String) (parts : List String) : String :=
  String.mk (List.intercalate sep.data (parts.map String.data))

/-- Python `s.split(sep, maxsplit)`: at most `maxsplit + 1` parts, the last
part keeping any further separators. -/
def pySplit (s sep : String) (maxsplit : Nat) : List String :=
  let parts := pySplitOn s sep
  if parts.length ≤ maxsplit + 1 then parts
  else parts.take maxsplit ++ [joinSep sep (parts.drop maxsplit)]

/-- Python 2-tuple unpacking `a, b = l`: raises `ValueError` with CPython's
message when the list does not have exactly two elements. -/
def unpack2 (l : List String) : Except String (String × String) :=
  match l with
  | [a, b] => Except.ok (a, b)
  | [] => Except.error "not enough values to unpack (expected 2, got 0)"
  | [_] => Except.error "not enough values to unpack (expected 2, got 1)"
  | _ => Except.error "too many values to unpack (expected 2)"

/-- Python 3-tuple unpacking `a, b, c = l`. -/
def unpack3 (l : List String) : Except String (String × String × String) :=
  match l with
  | [a, b, c] => Except.ok (a, b, c)
  | [] => Except.error "not enough values to unpack (expected 3, got 0)"
  | [_] => Except.error "not enough values to unpack (expected 3, got 1)"
  | [_, _] => Except.error "not enough values to unpack (expected 3, got 2)"
  | _ => Except.error "too many values to unpack (expected 3)"

/-- Transition table: Python dict keyed by (state, symbol) with value
(write, move, new_state). -/
abbrev TransTable := List ((String × String) × (String × String × String))

/-- Embedding of a Python 1-character string, as produced by `list(tape_str)`. -/
def strOfChar (c : Char) : String := String.mk [c]

/-- Python dict lookup on the association-list representation: the most
recently inserted binding for a key wins (bindings are prepended). -/
def dictGet (key : String × String) :
    TransTable → Option (String × String × String)
  | [] => none
  | (k, v) :: t => if k = key then some v else dictGet key t

/-- The `TuringMachine` class state: fields as set by `__init__`
(src/utm_visualizer.py lines 16-25). -/
structure TuringMachine where
  blank : String
  tape : List String
  head : Int
  start_state : String
  state : String
  accept_state : String
  reject_state : String
  transitions : TransTable
deriving Repr, DecidableEq

/-- `TuringMachine.__init__`: `tape = list(tape_str) if tape_str else [blank]`,
head 0, state = start_state (src/utm_visualizer.py lines 16-25). -/
def TuringMachine.init (tape_str : String) (transitions : TransTable)
    (start_state accept_state reject_state blank : String) : TuringMachine :=
  { blank := blank
    tape := if tape_str = "" then [blank] else tape_str.data.map strOfChar
    head := 0
    start_state := start_state
    state := start_state
    accept_state := accept_state
    reject_state := reject_state
    transitions := transitions }

/-- `TuringMachine.ensure_head_in_bounds` (src/utm_visualizer.py lines 27-34):
if head < 0, prepend `abs(head)` blanks and shift the head by that amount;
elif head ≥ len(tape), append `head - len(tape) + 1` blanks. -/
def TuringMachine.ensure_head_in_bounds (m : TuringMachine) : TuringMachine :=
  if m.head < 0 then
    let add := List.replicate m.head.natAbs m.blank
    { m with tape := add ++ m.tape, head := m.head + (add.length : Int) }
  else if (m.tape.length : Int) ≤ m.head then
    let add := List.replicate (m.head - (m.tape.length : Int) + 1).toNat m.blank
    { m with tape := m.tape ++ add }
  else m

/-- `TuringMachine.step` (src/utm_visualizer.py lines 36-52): return false
without mutation when halted; otherwise normalize the head, read the symbol,
and either reject on a missing key or apply (write, move, new_state).
The Python read `self.tape[self.head]` is in bounds after normalization, so
`getD` with the blank default is exact on every reachable input. -/
def TuringMachine.step (m : TuringMachine) : TuringMachine × Bool :=
  if m.state = m.accept_state ∨ m.state = m.reject_state then (m, false)
  else
    let n := m.ensure_head_in_bounds
    match dictGet (n.state, n.tape.getD n.head.toNat n.blank) n.transitions with
    | none => ({ n with state := n.reject_state }, false)
    | some (write, move, new_state) =>
      ({ n with
          tape := n.tape.set n.head.toNat write
          head :=
            if pyUpper move = "R" then n.head + 1
            else if pyUpper move = "L" then n.head - 1
            else n.head
          state := new_state }, true)

/-- `TuringMachine.reset` (src/utm_visualizer.py lines 54-57):
`tape = list(tape_str) if tape_str else [self.blank]`, head 0,
state = start_state. -/
def TuringMachine.reset (m : TuringMachine) (tape_str : String) : TuringMachine :=
  { m with
      tape := if tape_str = "" then [m.blank] else tape_str.data.map strOfChar
      head := 0
      state := m.start_state }

/-- Apply `step` n times, keeping only the machine (repeated `step()` calls). -/
def TuringMachine.steps (m : TuringMachine) : Nat → TuringMachine
  | 0 => m
  | n + 1 => ((m.step).1).steps n

/-- Accumulator of `parse_tm_description`'s loop: the transition dict and the
four scalar variables with their initial defaults
(src/utm_visualizer.py lines 64-65). -/
structure PState where
  transitions : TransTable
  start_state : String
  accept_state : String
  reject_state : String
  tape : String
deriving Repr, DecidableEq

/-- The initial parse accumulator. -/
def initPState : PState := ⟨[], "q0", "q_accept", "q_reject", "_"⟩

/-- One iteration of the `parse_tm_description` loop body
(src/utm_visualizer.py lines 66-89): skip blank/comment lines, handle a
transition line (splitting left of `->` on the first comma and right of `->`
on the first two commas, normalizing the token `blank` and uppercasing the
move), else a `KEY: value` directive line, else ignore. -/
def parse_line (acc : PState) (raw : String) : Except String PState :=
  let line := pyStrip raw
  if line = "" || pyStartsWith line "#" then Except.ok acc
  else if hasSub line "->" then
    match unpack2 (pySplit line "->" 1) with
    | Except.error e => Except.error e
    | Except.ok (left, right) =>
      match unpack2 ((pySplit left "," 1).map pyStrip) with
      | Except.error e => Except.error e
      | Except.ok (state, symbol) =>
        match unpack3 ((pySplit right "," 2).map pyStrip) with
        | Except.error e => Except.error e
        | Except.ok (write_symbol, move, new_state) =>
          let symbol := if pyLower symbol = "blank" then "_" else symbol
          let write_symbol :=
            if pyLower write_symbol = "blank" then "_" else write_symbol
          Except.ok { acc with
            transitions :=
              ((state, symbol), (write_symbol, pyUpper move, new_state))
                :: acc.transitions }
  else if hasSub line ":" then
    match unpack2 ((pySplit line ":" 1).map pyStrip) with
    | Except.error e => Except.error e
    | Except.ok (key, val) =>
      let key := pyUpper key
      if key = "START" then Except.ok { acc with start_state := val }
      else if key = "ACCEPT" then Except.ok { acc with accept_state := val }
      else if key = "REJECT" then Except.ok { acc with reject_state := val }
      else if key = "TAPE" then
        Except.ok { acc with tape := if val = "" then "_" else val }
      else Except.ok acc
  else Except.ok acc

/-- `parse_tm_description` (src/utm_visualizer.py lines 63-90): fold the loop
body over the lines of the text; a raised `ValueError` aborts the whole call
with no result tuple.  The source iterates `text.splitlines()`; for
newline-delimited text this matches splitting on the newline character (a
trailing empty piece is skipped as a blank line). -/
def parse_tm_description (text : String) :
    Except String (TransTable × String × String × String × String) :=
  match (pySplitOn text "\n").foldlM parse_line initPState with
  | Except.error e => Except.error e
  | Except.ok st =>
    Except.ok (st.transitions, st.start_state, st.accept_state,
      st.reject_state, st.tape)

lemma ensure_state_eq (m : TuringMachine) :
    m.ensure_head_in_bounds.state = m.state := by
  unfold TuringMachine.ensure_head_in_bounds
  split
  · rfl
  · split <;> rfl

lemma ensure_accept_eq (m : TuringMachine) :
    m.ensure_head_in_bounds.accept_state = m.accept_state := by
  unfold TuringMachine.ensure_head_in_bounds
  split
  · rfl
  · split <;> rfl

lemma ensure_reject_eq (m : TuringMachine) :
    m.ensure_head_in_bounds.reject_state = m.reject_state := by
  unfold TuringMachine.ensure_head_in_bounds
  split
  · rfl
  · split <;> rfl

lemma ensure_len (m : TuringMachine) :
    m.tape.length ≤ m.ensure_head_in_bounds.tape.length := by
  unfold TuringMachine.ensure_head_in_bounds
  split
  · simp
  · split <;> simp

/-- When the head is already within bounds, normalization is the identity. -/
lemma ensure_noop (m : TuringMachine) (h0 : 0 ≤ m.head)
    (h1 : m.head < (m.tape.length : Int)) :
    m.ensure_head_in_bounds = m := by
  unfold TuringMachine.ensure_head_in_bounds
  rw [if_neg (by omega), if_neg (by omega)]

/-- The halted branch of `step` (src line 37-38). -/
lemma step_halted_eq (m : TuringMachine)
    (h : m.state = m.accept_state ∨ m.state = m.reject_state) :
    m.step = (m, false) := by
  unfold TuringMachine.step
  rw [if_pos h]

/-- The missing-key branch of `step` (src lines 42-44). -/
lemma step_missing_eq (m : TuringMachine)
    (h1 : ¬(m.state = m.accept_state ∨ m.state = m.reject_state))
    (h2 : dictGet (m.ensure_head_in_bounds.state,
        m.ensure_head_in_bounds.tape.getD m.ensure_head_in_bounds.head.toNat
          m.ensure_head_in_bounds.blank)
        m.ensure_head_in_bounds.transitions = none) :
    m.step = ({ m.ensure_head_in_bounds with
      state := m.ensure_head_in_bounds.reject_state }, false) := by
  unfold TuringMachine.step
  rw [if_neg h1]
  simp only [h2]

/-- The found-key branch of `step` (src lines 45-52). -/
lemma step_found_eq (m : TuringMachine) (w mv ns : String)
    (h1 : ¬(m.state = m.accept_state ∨ m.state = m.reject_state))
    (h2 : dictGet (m.ensure_head_in_bounds.state,
        m.ensure_head_in_bounds.tape.getD m.ensure_head_in_bounds.head.toNat
          m.ensure_head_in_bounds.blank)
        m.ensure_head_in_bounds.transitions = some (w, mv, ns)) :
    m.step = ({ m.ensure_head_in_bounds with
      tape := m.ensure_head_in_bounds.tape.set
        m.ensure_head_in_bounds.head.toNat w
      head :=
        if pyUpper mv = "R" then m.ensure_head_in_bounds.head + 1
        else if pyUpper mv = "L" then m.ensure_head_in_bounds.head - 1
        else m.ensure_head_in_bounds.head
      state := ns }, true) := by
  unfold TuringMachine.step
  rw [if_neg h1]
  simp only [h2]

/-- A single `step` never shrinks the tape. -/
lemma step_len (m : TuringMachine) :
    m.tape.length ≤ ((m.step).1).tape.length := by
  by_cases h : m.state = m.accept_state ∨ m.state = m.reject_state
  · rw [step_halted_eq m h]
  · rcases h2 : dictGet (m.ensure_head_in_bounds.state,
        m.ensure_head_in_bounds.tape.getD m.ensure_head_in_bounds.head.toNat
          m.ensure_head_in_bounds.blank)
        m.ensure_head_in_bounds.transitions with _ | ⟨w, mv, ns⟩
    · rw [step_missing_eq m h h2]
      exact ensure_len m
    · rw [step_found_eq m w mv ns h h2]
      simpa using ensure_len m

/-- Scenario 3's machine: table {(q0,x)->(x,L,q1)}, tape "x", head 0. -/
def scenario3TM : TuringMachine :=
  TuringMachine.init "x" [(("q0", "x"), ("x", "L", "q1"))]
    "q0" "q_accept" "q_reject" "_"

/-- Scenario 1's machine: the replace-a-with-b table over tape "aabb_". -/
def scenario1TM : TuringMachine :=
  TuringMachine.init "aabb_"
    [(("q0", "a"), ("b", "R", "q0")),
     (("q0", "b"), ("b", "R", "q0")),
     (("q0", "_"), ("_", "S", "q_accept"))]
    "q0" "q_accept" "q_reject" "_"

/-- C1 counterexample: on scenario 3's machine the claim is false — after one
`step()` the tape does NOT have length 2 with head 0; the code leaves the
tape at length 1 and the head at -1 (normalization happens only at the next
read). -/
theorem step_left_from_zero_claim_false :
    ¬((scenario3TM.step).1.tape.length = 2 ∧ (scenario3TM.step).1.head = 0
      ∧ (scenario3TM.step).1.state = "q1") := by
  decide

/-- C1 amended: one step of scenario 3's machine returns true, sets state q1,
and leaves the tape as just "x" with head -1; the one-blank left extension
happens at the start of the next read (`ensure_head_in_bounds`), after which
the tape is "_x" with head 0 and the previous index-0 symbol at index 1. -/
theorem step_left_from_zero_defers_extension :
    (scenario3TM.step).2 = true
    ∧ (scenario3TM.step).1.state = "q1"
    ∧ (scenario3TM.step).1.tape = ["x"]
    ∧ (scenario3TM.step).1.head = -1
    ∧ ((scenario3TM.step).1.ensure_head_in_bounds).tape = ["_", "x"]
    ∧ ((scenario3TM.step).1.ensure_head_in_bounds).head = 0 := by
  decide

/-- C2 counterexample: parsing the malformed line "q0,a -> b,R" raises
Python's unpacking ValueError, whose message is generic — it does not
contain the offending line (nor even its state name), so the error does not
identify the offending line as the claim states. -/
theorem parse_missing_field_error_lacks_line :
    parse_tm_description "q0,a -> b,R"
      = Except.error "not enough values to unpack (expected 3, got 2)"
    ∧ hasSub "not enough values to unpack (expected 3, got 2)" "q0,a -> b,R"
      = false
    ∧ hasSub "not enough values to unpack (expected 3, got 2)" "q0" = false := by
  exact ⟨rfl, rfl, rfl⟩

/-- C6: scenario 1 — running the replace-a-with-b machine for exactly 5 steps
yields tape "bbbb_" and state q_accept. -/
theorem scenario1_replace_a_to_b :
    (scenario1TM.steps 5).tape = ["b", "b", "b", "b", "_"]
    ∧ (scenario1TM.steps 5).state = "q_accept" := by
  decide

/-- C3: with the current state equal to the accept or reject state, `step()`
returns false and leaves tape, head and state (the whole machine) unchanged,
and repeated `step()` calls never change the machine and always return
false. -/
theorem step_halted_no_change (m : TuringMachine)
    (h : m.state = m.accept_state ∨ m.state = m.reject_state) :
    m.step = (m, false)
    ∧ (∀ n : Nat, m.steps n = m)
    ∧ (∀ n : Nat, (((m.steps n).step)).2 = false) := by
  have h1 : m.step = (m, false) := step_halted_eq m h
  have hsteps : ∀ n : Nat, m.steps n = m := by
    intro n
    induction n with
    | zero => rfl
    | succ k ih =>
      show ((m.step).1).steps k = m
      rw [h1]
      exact ih
  refine ⟨h1, hsteps, ?_⟩
  intro n
  rw [hsteps n, h1]

/-- Witness for C3 at a concrete halted machine. -/
def haltedTM : TuringMachine :=
  { TuringMachine.init "ab" [] "q0" "q_accept" "q_reject" "_" with
      state := "q_accept" }

theorem step_halted_no_change_witness :
    haltedTM.step = (haltedTM, false)
    ∧ haltedTM.steps 3 = haltedTM
    ∧ ((haltedTM.steps 3).step).2 = false :=
  ⟨(step_halted_no_change haltedTM (Or.inl rfl)).1,
   (step_halted_no_change haltedTM (Or.inl rfl)).2.1 3,
   (step_halted_no_change haltedTM (Or.inl rfl)).2.2 3⟩

/-- C4: on a non-halted machine whose (state, symbol-under-head-after-
normalization) key is absent from the table, one `step()` sets the state to
the reject state and returns false, leaving tape and head exactly as they
were at read time (so the symbol under the head is not rewritten). -/
theorem step_missing_key_rejects (m : TuringMachine)
    (h1 : ¬(m.state = m.accept_state ∨ m.state = m.reject_state))
    (h2 : dictGet (m.ensure_head_in_bounds.state,
        m.ensure_head_in_bounds.tape.getD m.ensure_head_in_bounds.head.toNat
          m.ensure_head_in_bounds.blank)
        m.ensure_head_in_bounds.transitions = none) :
    m.step = ({ m.ensure_head_in_bounds with
      state := m.ensure_head_in_bounds.reject_state }, false)
    ∧ (m.step).1.tape = m.ensure_head_in_bounds.tape
    ∧ (m.step).1.head = m.ensure_head_in_bounds.head
    ∧ (m.step).1.state = m.reject_state
    ∧ (m.step).2 = false := by
  have e := step_missing_eq m h1 h2
  refine ⟨e, ?_, ?_, ?_, ?_⟩ <;> rw [e]
  exact ensure_reject_eq m

/-- Witness for C4: a machine with an empty table rejects on its first step. -/
def missTM : TuringMachine :=
  TuringMachine.init "a" [] "q0" "q_accept" "q_reject" "_"

theorem step_missing_key_rejects_witness :
    missTM.step = ({ missTM.ensure_head_in_bounds with
      state := missTM.ensure_head_in_bounds.reject_state }, false)
    ∧ (missTM.step).1.tape = missTM.ensure_head_in_bounds.tape
    ∧ (missTM.step).1.head = missTM.ensure_head_in_bounds.head
    ∧ (missTM.step).1.state = missTM.reject_state
    ∧ (missTM.step).2 = false :=
  step_missing_key_rejects missTM (by decide) rfl

/-- C5: on a non-halted machine whose (state, symbol) key maps to
(write, move, new_state), `step()` writes the symbol at the (normalized)
head position, sets the state to new_state, returns true, and moves the head
+1 when the uppercased move is "R", -1 when it is "L", and leaves it
unchanged for any other move value. -/
theorem step_found_applies_transition (m : TuringMachine) (w mv ns : String)
    (h1 : ¬(m.state = m.accept_state ∨ m.state = m.reject_state))
    (h2 : dictGet (m.ensure_head_in_bounds.state,
        m.ensure_head_in_bounds.tape.getD m.ensure_head_in_bounds.head.toNat
          m.ensure_head_in_bounds.blank)
        m.ensure_head_in_bounds.transitions = some (w, mv, ns)) :
    (m.step).2 = true
    ∧ (m.step).1.state = ns
    ∧ (m.step).1.tape = m.ensure_head_in_bounds.tape.set
        m.ensure_head_in_bounds.head.toNat w
    ∧ (pyUpper mv = "R" →
        (m.step).1.head = m.ensure_head_in_bounds.head + 1)
    ∧ (pyUpper mv = "L" →
        (m.step).1.head = m.ensure_head_in_bounds.head - 1)
    ∧ (pyUpper mv ≠ "R" → pyUpper mv ≠ "L" →
        (m.step).1.head = m.ensure_head_in_bounds.head) := by
  have e := step_found_eq m w mv ns h1 h2
  refine ⟨?_, ?_, ?_, ?_, ?_, ?_⟩ <;> rw [e]
  · intro hr
    simp [hr]
  · intro hl
    have hr : pyUpper mv ≠ "R" := by
      rw [hl]
      decide
    simp [hr, hl]
  · intro hr hl
    simp [hr, hl]

/-- Witness for C5 at a transition whose move token is the typo "X"
(implicit Stay). -/
def stayTM : TuringMachine :=
  TuringMachine.init "a" [(("q0", "a"), ("b", "X", "q1"))]
    "q0" "q_accept" "q_reject" "_"

theorem step_found_applies_transition_witness :
    (stayTM.step).2 = true
    ∧ (stayTM.step).1.state = "q1"
    ∧ (stayTM.step).1.tape = stayTM.ensure_head_in_bounds.tape.set
        stayTM.ensure_head_in_bounds.head.toNat "b"
    ∧ (stayTM.step).1.head = stayTM.ensure_head_in_bounds.head := by
  obtain ⟨ha, hb, hc, _, _, hf⟩ :=
    step_found_applies_transition stayTM "b" "X" "q1" (by decide) rfl
  exact ⟨ha, hb, hc, hf (by decide) (by decide)⟩

/-- C8: `reset(tape_str)` replaces the tape with the given content (a single
blank when the text is empty), sets head 0 and state to the start state, and
leaves the transition table, the start/accept/reject labels and the blank
symbol unchanged. -/
theorem reset_spec (m : TuringMachine) (tape_str : String) :
    (m.reset tape_str).tape
      = (if tape_str = "" then [m.blank] else tape_str.data.map strOfChar)
    ∧ (m.reset tape_str).head = 0
    ∧ (m.reset tape_str).state = m.start_state
    ∧ (m.reset tape_str).transitions = m.transitions
    ∧ (m.reset tape_str).start_state = m.start_state
    ∧ (m.reset tape_str).accept_state = m.accept_state
    ∧ (m.reset tape_str).reject_state = m.reject_state
    ∧ (m.reset tape_str).blank = m.blank := by
  exact ⟨rfl, rfl, rfl, rfl, rfl, rfl, rfl, rfl⟩

/-- C7: head normalization is idempotent (on a machine with a non-empty
tape, a second call changes nothing); one call left-extends by |head| blanks
and shifts the head by that amount when head < 0, right-extends by
head - length + 1 blanks when head ≥ length, and afterwards
0 ≤ head < tape length. -/
theorem ensure_head_in_bounds_spec (m : TuringMachine) (_h : m.tape ≠ []) :
    m.ensure_head_in_bounds.ensure_head_in_bounds = m.ensure_head_in_bounds
    ∧ (m.head < 0 →
        m.ensure_head_in_bounds.tape
          = List.replicate m.head.natAbs m.blank ++ m.tape
        ∧ m.ensure_head_in_bounds.head = m.head + (m.head.natAbs : Int))
    ∧ ((m.tape.length : Int) ≤ m.head →
        m.ensure_head_in_bounds.tape
          = m.tape ++ List.replicate
              (m.head - (m.tape.length : Int) + 1).toNat m.blank
        ∧ m.ensure_head_in_bounds.head = m.head)
    ∧ 0 ≤ m.ensure_head_in_bounds.head
    ∧ m.ensure_head_in_bounds.head < (m.ensure_head_in_bounds.tape.length : Int) := by
  have hb : 0 ≤ m.ensure_head_in_bounds.head
      ∧ m.ensure_head_in_bounds.head
        < (m.ensure_head_in_bounds.tape.length : Int) := by
    unfold TuringMachine.ensure_head_in_bounds
    by_cases hneg : m.head < 0
    · rw [if_pos hneg]
      simp only [List.length_replicate, List.length_append]
      constructor
      · omega
      · push_cast
        omega
    · rw [if_neg hneg]
      by_cases hge : (m.tape.length : Int) ≤ m.head
      · rw [if_pos hge]
        simp only [List.length_replicate, List.length_append]
        constructor
        · omega
        · push_cast
          omega
      · rw [if_neg hge]
        constructor <;> omega
  refine ⟨ensure_noop _ hb.1 hb.2, ?_, ?_, hb.1, hb.2⟩
  · intro hneg
    unfold TuringMachine.ensure_head_in_bounds
    rw [if_pos hneg]
    exact ⟨rfl, by simp only [List.length_replicate]⟩
  · intro hge
    have hneg : ¬ m.head < 0 := by omega
    unfold TuringMachine.ensure_head_in_bounds
    rw [if_neg hneg, if_pos hge]
    exact ⟨rfl, rfl⟩

/-- Witness for C7 at a machine whose head is negative. -/
def negHeadTM : TuringMachine :=
  { TuringMachine.init "x" [] "q0" "q_accept" "q_reject" "_" with head := -2 }

theorem ensure_head_in_bounds_spec_witness :
    negHeadTM.ensure_head_in_bounds.ensure_head_in_bounds
      = negHeadTM.ensure_head_in_bounds
    ∧ (negHeadTM.head < 0 →
        negHeadTM.ensure_head_in_bounds.tape
          = List.replicate negHeadTM.head.natAbs negHeadTM.blank
              ++ negHeadTM.tape
        ∧ negHeadTM.ensure_head_in_bounds.head
          = negHeadTM.head + (negHeadTM.head.natAbs : Int))
    ∧ ((negHeadTM.tape.length : Int) ≤ negHeadTM.head →
        negHeadTM.ensure_head_in_bounds.tape
          = negHeadTM.tape ++ List.replicate
              (negHeadTM.head - (negHeadTM.tape.length : Int) + 1).toNat
              negHeadTM.blank
        ∧ negHeadTM.ensure_head_in_bounds.head = negHeadTM.head)
    ∧ 0 ≤ negHeadTM.ensure_head_in_bounds.head
    ∧ negHeadTM.ensure_head_in_bounds.head
      < (negHeadTM.ensure_head_in_bounds.tape.length : Int) :=
  ensure_head_in_bounds_spec negHeadTM (by decide)

/-- C9: whenever `step()` returns false the state immediately afterwards is
the accept or reject state; conversely a matched transition whose target is
the accept or reject state still applies its write and move and returns
true, because halting is checked only on entry to `step()`. -/
theorem step_false_means_halted (m : TuringMachine) :
    ((m.step).2 = false →
      (m.step).1.state = m.accept_state
      ∨ (m.step).1.state = m.reject_state)
    ∧ (∀ w mv ns : String,
        ¬(m.state = m.accept_state ∨ m.state = m.reject_state) →
        dictGet (m.ensure_head_in_bounds.state,
          m.ensure_head_in_bounds.tape.getD
            m.ensure_head_in_bounds.head.toNat m.ensure_head_in_bounds.blank)
          m.ensure_head_in_bounds.transitions = some (w, mv, ns) →
        (ns = m.accept_state ∨ ns = m.reject_state) →
        (m.step).2 = true
        ∧ (m.step).1.state = ns
        ∧ (m.step).1.tape = m.ensure_head_in_bounds.tape.set
            m.ensure_head_in_bounds.head.toNat w
        ∧ (pyUpper mv = "R" →
            (m.step).1.head = m.ensure_head_in_bounds.head + 1)
        ∧ (pyUpper mv = "L" →
            (m.step).1.head = m.ensure_head_in_bounds.head - 1)
        ∧ (pyUpper mv ≠ "R" → pyUpper mv ≠ "L" →
            (m.step).1.head = m.ensure_head_in_bounds.head)) := by
  constructor
  · intro hfalse
    by_cases hh : m.state = m.accept_state ∨ m.state = m.reject_state
    · rw [step_halted_eq m hh]
      exact hh
    · rcases h2 : dictGet (m.ensure_head_in_bounds.state,
          m.ensure_head_in_bounds.tape.getD
            m.ensure_head_in_bounds.head.toNat m.ensure_head_in_bounds.blank)
          m.ensure_head_in_bounds.transitions with _ | ⟨w, mv, ns⟩
      · rw [step_missing_eq m hh h2]
        right
        exact ensure_reject_eq m
      · rw [step_found_eq m w mv ns hh h2] at hfalse
        simp at hfalse
  · intro w mv ns h1 h2 _
    have e := step_found_eq m w mv ns h1 h2
    refine ⟨?_, ?_, ?_, ?_, ?_, ?_⟩ <;> rw [e]
    · intro hr
      simp [hr]
    · intro hl
      have hr : pyUpper mv ≠ "R" := by
        rw [hl]
        decide
      simp [hr, hl]
    · intro hr hl
      simp [hr, hl]

/-- Witness for C9: a transition moving Right into the accept state still
writes, moves the head by +1 and returns true. -/
def intoAcceptTM : TuringMachine :=
  TuringMachine.init "x" [(("q0", "x"), ("y", "R", "q_accept"))]
    "q0" "q_accept" "q_reject" "_"

theorem step_false_means_halted_witness :
    (intoAcceptTM.step).2 = true
    ∧ (intoAcceptTM.step).1.state = "q_accept"
    ∧ (intoAcceptTM.step).1.tape = intoAcceptTM.ensure_head_in_bounds.tape.set
        intoAcceptTM.ensure_head_in_bounds.head.toNat "y"
    ∧ (intoAcceptTM.step).1.head
      = intoAcceptTM.ensure_head_in_bounds.head + 1 := by
  obtain ⟨ha, hb, hc, hd, _, _⟩ :=
    (step_false_means_halted intoAcceptTM).2 "y" "R" "q_accept"
      (by decide) rfl (Or.inl rfl)
  exact ⟨ha, hb, hc, hd (by decide)⟩

/-- C10: the tape is always non-empty — construction and reset produce a
tape of length ≥ 1, `ensure_head_in_bounds` and `step` never shrink the
tape, and hence every operation preserves tape length ≥ 1. -/
theorem tape_len_ge_one_invariant :
    (∀ (s : String) (tr : TransTable) (st a r b : String),
      1 ≤ (TuringMachine.init s tr st a r b).tape.length)
    ∧ (∀ (m : TuringMachine) (s : String), 1 ≤ (m.reset s).tape.length)
    ∧ (∀ m : TuringMachine,
        m.tape.length ≤ m.ensure_head_in_bounds.tape.length)
    ∧ (∀ m : TuringMachine, m.tape.length ≤ ((m.step).1).tape.length)
    ∧ (∀ m : TuringMachine,
        1 ≤ m.tape.length → 1 ≤ ((m.step).1).tape.length) := by
  have hdata : ∀ s : String, s ≠ "" → 1 ≤ (s.data.map strOfChar).length := by
    intro s hs
    simp only [List.length_map]
    have : s.data ≠ [] := by
      intro hd
      apply hs
      cases s
      simp at hd
      simp [hd]
    exact List.length_pos.mpr this
  refine ⟨?_, ?_, ensure_len, step_len, ?_⟩
  · intro s tr st a r b
    unfold TuringMachine.init
    by_cases hs : s = ""
    · simp [hs]
    · simpa [hs] using hdata s hs
  · intro m s
    unfold TuringMachine.reset
    by_cases hs : s = ""
    · simp [hs]
    · simpa [hs] using hdata s hs
  · intro m h
    exact le_trans h (step_len m)

/-- Witness for C10's length-preservation conjunct at a concrete machine. -/
theorem tape_len_ge_one_invariant_witness :
    1 ≤ (((TuringMachine.init "ab" [] "q0" "q_accept" "q_reject" "_").step).1).tape.length :=
  tape_len_ge_one_invariant.2.2.2.2
    (TuringMachine.init "ab" [] "q0" "q_accept" "q_reject" "_") (by decide)

/-- A trimmed, non-comment transition line whose comma-split field counts
are wrong: the part left of `->` does not split (with maxsplit 1) into the
two fields state, readSymbol, or the part right of `->` does not split
(with maxsplit 2) into the three fields writeSymbol, move, nextState. -/
def bad_line (raw : String) : Bool :=
  let line := pyStrip raw
  if line = "" || pyStartsWith line "#" then false
  else if hasSub line "->" then
    match unpack2 (pySplit line "->" 1) with
    | Except.error _ => true
    | Except.ok (left, right) =>
      !(decide (((pySplit left "," 1).map pyStrip).length = 2))
      || !(decide (((pySplit right "," 2).map pyStrip).length = 3))
  else false

lemma unpack2_ok_len (l : List String) (p : String × String)
    (h : unpack2 l = Except.ok p) : l.length = 2 := by
  match l with
  | [a, b] => rfl
  | [] => exact absurd h (by simp [unpack2])
  | [a] => exact absurd h (by simp [unpack2])
  | a :: b :: c :: t => exact absurd h (by simp [unpack2])

lemma unpack3_ok_len (l : List String) (p : String × String × String)
    (h : unpack3 l = Except.ok p) : l.length = 3 := by
  match l with
  | [a, b, c] => rfl
  | [] => exact absurd h (by simp [unpack3])
  | [a] => exact absurd h (by simp [unpack3])
  | [a, b] => exact absurd h (by simp [unpack3])
  | a :: b :: c :: d :: t => exact absurd h (by simp [unpack3])

/-- A bad transition line makes the loop body raise, whatever the
accumulated state is. -/
lemma parse_line_bad (raw : String) (hbad : bad_line raw = true) :
    ∀ acc : PState, ∃ e, parse_line acc raw = Except.error e := by
  intro acc
  simp only [bad_line] at hbad
  simp only [parse_line]
  split
  · next hc1 =>
    rw [if_pos hc1] at hbad
    cases hbad
  · next hc1 =>
    rw [if_neg hc1] at hbad
    split
    · next hsub =>
      rw [if_pos hsub] at hbad
      split
      · next e heq => exact ⟨e, rfl⟩
      · next left right heq1 =>
        rw [heq1] at hbad
        split
        · next e heq => exact ⟨e, rfl⟩
        · next st sym heq2 =>
          split
          · next e heq => exact ⟨e, rfl⟩
          · next ws mv ns heq3 =>
            have hl2 := unpack2_ok_len _ _ heq2
            have hl3 := unpack3_ok_len _ _ heq3
            simp only [List.length_map] at hl2 hl3
            simp [hl2, hl3] at hbad
    · next hsub =>
      rw [if_neg hsub] at hbad
      cases hbad

/-- Folding an `Except`-valued body over a list containing an element on
which the body always raises yields an error. -/
lemma foldlM_err {α σ : Type} (f : σ → α → Except String σ) (x : α)
    (hbad : ∀ acc, ∃ e, f acc x = Except.error e) :
    ∀ l : List α, x ∈ l → ∀ ini : σ, ∃ e, l.foldlM f ini = Except.error e := by
  intro l
  induction l with
  | nil =>
    intro hx
    cases hx
  | cons y t ih =>
    intro hx ini
    rw [List.foldlM_cons]
    rcases List.mem_cons.mp hx with rfl | hx
    · obtain ⟨e, he⟩ := hbad ini
      refine ⟨e, ?_⟩
      rw [he]
      rfl
    · rcases hfy : f ini y with e | s
      · exact ⟨e, rfl⟩
      · exact ih hx s

/-- C2 amended: for every input text containing a transition line whose
comma-split field count is wrong, `parse_tm_description` raises (Python's
`ValueError` from tuple unpacking), so no machine 5-tuple is produced — but
the error is a generic unpacking message that does not identify the
offending line. -/
theorem parse_bad_transition_line_errors (text : String)
    (h : ∃ raw ∈ pySplitOn text "\n", bad_line raw = true) :
    ∃ e, parse_tm_description text = Except.error e := by
  obtain ⟨raw, hmem, hbad⟩ := h
  obtain ⟨e, he⟩ := foldlM_err parse_line raw (parse_line_bad raw hbad)
    (pySplitOn text "\n") hmem initPState
  refine ⟨e, ?_⟩
  unfold parse_tm_description
  rw [he]

/-- Witness for C2's amended theorem at scenario 4's malformed line. -/
theorem parse_bad_transition_line_errors_witness :
    ∃ e, parse_tm_description "q0,a -> b,R" = Except.error e :=
  parse_bad_transition_line_errors "q0,a -> b,R"
    ⟨"q0,a -> b,R", by decide, by decide⟩
